import Mathlib

/-!
Verification of the time-accounting core of `APP_Control_Horas.py`
(class `TimeTracker`): registering entry/exit times, deleting records,
computing worked hours with the 30-minute break deduction and the
overnight correction, and the weekly/yearly aggregations.

The store `self.data` (a dict keyed by `YYYY-MM-DD` strings) is embedded
as an association list; real numbers computed with Python floats are
embedded as rationals (all reachable values are whole numbers of minutes
divided by 60, where float rounding artifacts cannot affect any of the
comparisons or 2-decimal roundings performed by the code); Python's
`round(x, 2)` is embedded as exact half-even rounding to a multiple of
1/100; functions that return `None` on failure are embedded as
`Option`-valued functions.
-/

namespace ControlHoras

/-- One record of `self.data`: fields `entry`, `exit` (nullable `HH:MM`
strings) and `notes`, as created at line 45 of the source. -/
structure Record where
  entry : Option String
  exit : Option String
  notes : String
deriving DecidableEq

/-- The in-memory store `self.data`: a mapping from date strings to
records, embedded as an association list in insertion order. -/
abbrev Store := List (String × Record)

/-- Dict lookup `self.data[date_str]` / membership `date_str in self.data`. -/
def findRecord : Store → String → Option Record
  | [], _ => none
  | p :: rest, d => if p.1 = d then some p.2 else findRecord rest d

/-- `date_str in self.data`. -/
def containsKey (s : Store) (d : String) : Bool :=
  (findRecord s d).isSome

/-- `self.data[date_str] = record` on an existing key (dict assignment);
on an association list every binding of the key is rewritten. -/
def updateAt (s : Store) (d : String) (f : Record → Record) : Store :=
  s.map (fun p => if p.1 = d then (p.1, f p.2) else p)

/-- `self.data[date_str] = {"entry": None, "exit": None, "notes": ""}`
when the key is absent (line 44-45): a fresh binding appended in
insertion order. -/
def ensureKey (s : Store) (d : String) : Store :=
  if containsKey s d then s else s ++ [(d, ⟨none, none, ""⟩)]

/-- The `time_type` argument of `register_time`: `"entry"` or `"exit"`. -/
inductive TimeType where
  | entry : TimeType
  | exit : TimeType
deriving DecidableEq

/-- `self.data[date_str][time_type] = time_value` (line 47). -/
def Record.setTime (r : Record) (tt : TimeType) (tv : String) : Record :=
  match tt with
  | TimeType.entry => { r with entry := some tv }
  | TimeType.exit => { r with exit := some tv }

/-- `TimeTracker.register_time` (lines 42-52): create the record if the
date is new, set the requested field, and overwrite `notes` only when the
`notes` argument is truthy (non-empty). -/
def register_time (s : Store) (date_str : String) (tt : TimeType)
    (time_value : String) (notes : String) : Store :=
  updateAt (ensureKey s date_str) date_str (fun r =>
    let r1 := r.setTime tt time_value
    if notes = "" then r1 else { r1 with notes := notes })

/-- `TimeTracker.delete_record` (lines 54-60): remove the date's binding
and report whether it was present. -/
def delete_record (s : Store) (date_str : String) : Store × Bool :=
  if containsKey s date_str then
    (s.filter (fun p => !(p.1 = date_str : Bool)), true)
  else (s, false)

/-- Split a character list at every occurrence of a separator; the
result always has one more group than there are separators. -/
def splitOnChar (sep : Char) : List Char → List (List Char)
  | [] => [[]]
  | c :: rest =>
    match splitOnChar sep rest with
    | [] => [[]]
    | g :: gs => if c = sep then [] :: g :: gs else (c :: g) :: gs

/-- The number denoted by a list of decimal digit characters. -/
def digitsVal (cs : List Char) : Nat :=
  cs.foldl (fun a c => a * 10 + (c.toNat - 48)) 0

/-- Python `datetime.strptime(t, "%H:%M")`, reduced to the minutes past
midnight it denotes: one or two digits of hour (0-23), a colon, one or
two digits of minute (0-59), nothing else. A `ValueError` becomes `none`. -/
def parseTime (t : String) : Option Nat :=
  match splitOnChar ':' t.toList with
  | [hs, ms] =>
    if hs.length = 0 ∨ 2 < hs.length ∨ ¬ (hs.all Char.isDigit) then none
    else if ms.length = 0 ∨ 2 < ms.length ∨ ¬ (ms.all Char.isDigit) then none
    else
      let h := digitsVal hs
      let m := digitsVal ms
      if h ≤ 23 ∧ m ≤ 59 then some (h * 60 + m) else none
  | _ => none

/-- Gregorian leap year, as used by Python `datetime`. -/
def isLeap (y : Nat) : Bool :=
  (y % 4 = 0 ∧ ¬ (y % 100 = 0)) ∨ y % 400 = 0

/-- Number of days in a month of the Gregorian calendar. -/
def daysInMonth (y m : Nat) : Nat :=
  if m = 2 then (if isLeap y then 29 else 28)
  else if m = 4 ∨ m = 6 ∨ m = 9 ∨ m = 11 then 30
  else 31

/-- A Python `datetime.date`: calendar year, month (1-12), day. -/
structure Date where
  year : Nat
  month : Nat
  day : Nat
deriving DecidableEq

/-- `date + datetime.timedelta(days=1)`. -/
def nextDay (d : Date) : Date :=
  if d.day < daysInMonth d.year d.month then ⟨d.year, d.month, d.day + 1⟩
  else if d.month < 12 then ⟨d.year, d.month + 1, 1⟩
  else ⟨d.year + 1, 1, 1⟩

/-- `date + datetime.timedelta(days=n)`. -/
def addDays (d : Date) : Nat → Date
  | 0 => d
  | n + 1 => nextDay (addDays d n)

/-- Zero-pad a number to two digits. -/
def pad2 (n : Nat) : String :=
  if n < 10 then "0" ++ toString n else toString n

/-- Zero-pad a number to four digits. -/
def pad4 (n : Nat) : String :=
  if n < 10 then "000" ++ toString n
  else if n < 100 then "00" ++ toString n
  else if n < 1000 then "0" ++ toString n
  else toString n

/-- Python `date.strftime("%Y-%m-%d")`. -/
def formatDate (d : Date) : String :=
  pad4 d.year ++ "-" ++ pad2 d.month ++ "-" ++ pad2 d.day

/-- Python `datetime.strptime(s, "%Y-%m-%d")`: exactly four digits of
year (at least 1), one or two digits of month (1-12), one or two digits
of day valid for that month; anything else raises, embedded as `none`. -/
def parseDate (s : String) : Option Date :=
  match splitOnChar '-' s.toList with
  | [ys, ms, ds] =>
    if ¬ (ys.length = 4) ∨ ¬ (ys.all Char.isDigit) then none
    else if ms.length = 0 ∨ 2 < ms.length ∨ ¬ (ms.all Char.isDigit) then none
    else if ds.length = 0 ∨ 2 < ds.length ∨ ¬ (ds.all Char.isDigit) then none
    else
      let y := digitsVal ys
      let m := digitsVal ms
      let d := digitsVal ds
      if 1 ≤ y ∧ 1 ≤ m ∧ m ≤ 12 ∧ 1 ≤ d ∧ d ≤ daysInMonth y m then
        some ⟨y, m, d⟩
      else none
  | _ => none

/-- Python `round(q, 2)`: round to the nearest multiple of 1/100, ties
to even (Python rounds the exact value of the float; for every value
reachable in this program the float is close enough to the exact
rational that the two roundings agree, and no reachable value is a tie). -/
def round2 (q : ℚ) : ℚ :=
  let x : ℚ := q * 100
  let n : ℤ := ⌊x⌋
  let r : ℚ := x - n
  let k : ℤ :=
    if r < 1/2 then n
    else if 1/2 < r then n + 1
    else if n % 2 = 0 then n else n + 1
  (k : ℚ) / 100

/-- The gross hours computed at lines 73-76 from entry and exit minutes:
if the exit is strictly earlier in the day than the entry, it is pushed
24 hours later (`exit.replace(day=exit.day + 1)`), then the difference
in seconds is divided by 3600. -/
def grossHoursQ (em xm : Nat) : ℚ :=
  (((if xm < em then xm + 1440 else xm) - em : Nat) : ℚ) / 60

/-- `TimeTracker.calculate_hours` (lines 62-87): `None, None` (here
`none`) unless the date is present, both `entry` and `exit` are truthy
(non-null and non-empty) and both parse as `HH:MM`; otherwise the pair
`round(net, 2), round(gross, 2)` with the 30-minute deduction applied
when `apply_break` and the gross hours strictly exceed 5. -/
def calculate_hours (s : Store) (date_str : String) (apply_break : Bool) :
    Option (ℚ × ℚ) :=
  match findRecord s date_str with
  | none => none
  | some r =>
    match r.entry, r.exit with
    | some e, some x =>
      if e = "" ∨ x = "" then none
      else match parseTime e, parseTime x with
        | some em, some xm =>
          let g : ℚ := grossHoursQ em xm
          let n : ℚ := if apply_break ∧ 5 < g then g - 1/2 else g
          some (round2 n, round2 g)
        | _, _ => none
    | _, _ => none

/-- One per-day entry of the `week_data` dict built at lines 103-110. -/
structure DayEntry where
  entry : Option String
  exit : Option String
  hours_net : ℚ
  hours_gross : ℚ
  notes : String
  has_break : Bool
deriving DecidableEq

/-- The running state of the loop of `get_week_data` (lines 91-113):
the `week_data` dict, the two totals and the days-worked counter. -/
structure WeekAcc where
  days : List (String × DayEntry)
  tn : ℚ
  tb : ℚ
  dw : Nat
deriving DecidableEq

/-- The dict returned by `get_week_data` (lines 115-121). -/
structure WeekResult where
  days : List (String × DayEntry)
  total_hours_net : ℚ
  total_hours_gross : ℚ
  days_worked : Nat
  avg_per_day : ℚ
deriving DecidableEq

/-- The body of the loop of `get_week_data` for one date string: skip
unless the date is in the store and `calculate_hours` returns a truthy
net figure (`if horas_netas:`, line 102 — `None` and `0.0` are both
falsy), else record the day and accumulate. -/
def weekStep (s : Store) (d : String) (acc : WeekAcc) : WeekAcc :=
  match findRecord s d with
  | none => acc
  | some r =>
    match calculate_hours s d true with
    | none => acc
    | some (hn, hb) =>
      if hn = 0 then acc
      else
        ⟨(d, ⟨r.entry, r.exit, hn, hb, r.notes, decide (5 < hb)⟩) :: acc.days,
         hn + acc.tn, hb + acc.tb, acc.dw + 1⟩

/-- The loop of `get_week_data` over a list of date strings.  The loop
runs left to right; accumulating with `+` on each component, the fold
direction does not change any component, and the embedding processes the
head's contribution on top of the rest. -/
def weekFold (s : Store) : List String → WeekAcc
  | [] => ⟨[], 0, 0, 0⟩
  | d :: rest => weekStep s d (weekFold s rest)

/-- The seven date strings `(start_date + timedelta(days=i)).strftime("%Y-%m-%d")`
for `i in range(7)` (lines 96-98). -/
def weekDates (start : Date) : List String :=
  (List.range 7).map (fun i => formatDate (addDays start i))

/-- `TimeTracker.get_week_data` (lines 89-121). -/
def get_week_data (s : Store) (start : Date) : WeekResult :=
  let a := weekFold s (weekDates start)
  ⟨a.days, a.tn, a.tb, a.dw, if 0 < a.dw then a.tn / (a.dw : ℚ) else 0⟩

/-- The running totals of `get_year_total` (lines 128-130). -/
structure YearAcc where
  tn : ℚ
  tb : ℚ
  dw : Nat
deriving DecidableEq

/-- The dict returned by `get_year_total` (lines 144-149). -/
structure YearResult where
  total_hours_net : ℚ
  total_hours_gross : ℚ
  days_worked : Nat
  avg_per_day : ℚ
deriving DecidableEq

/-- The body of the loop of `get_year_total` for one stored item: a date
key that fails to parse as `%Y-%m-%d` is skipped by the `except: continue`
(lines 141-142); a parse into another year is skipped by the year test
(line 135); then the same truthy-net test as the weekly loop (line 137). -/
def yearStep (s : Store) (y : Nat) (p : String × Record) (acc : YearAcc) :
    YearAcc :=
  match parseDate p.1 with
  | none => acc
  | some dt =>
    if dt.year = y then
      match calculate_hours s p.1 true with
      | none => acc
      | some (hn, hb) =>
        if hn = 0 then acc else ⟨hn + acc.tn, hb + acc.tb, acc.dw + 1⟩
    else acc

/-- The loop of `get_year_total` over `self.data.items()`: left to
right in insertion order; with `+` accumulation the direction does not
change any component. -/
def yearFold (s : Store) (y : Nat) : List (String × Record) → YearAcc
  | [] => ⟨0, 0, 0⟩
  | p :: rest => yearStep s y p (yearFold s y rest)

/-- `TimeTracker.get_year_total` (lines 123-149) with an explicit year. -/
def get_year_total (s : Store) (y : Nat) : YearResult :=
  let a := yearFold s y s
  ⟨round2 a.tn, round2 a.tb, a.dw,
   if 0 < a.dw then round2 (a.tn / (a.dw : ℚ)) else 0⟩

/-- Whether `calculate_hours` on this date yields a truthy (non-zero)
net figure — the condition under which both aggregation loops count the
date as worked. -/
def definedNonzero (s : Store) (d : String) : Bool :=
  match calculate_hours s d true with
  | some (hn, _) => decide (¬ (hn = 0))
  | none => false

/-- Modelled from the spec's words for comparison with the code: the
calculator has no result exactly when the record is absent, its `entry`
or `exit` is absent, or either time string fails to parse as `HH:MM`. -/
def specCalcUndefined (s : Store) (d : String) : Bool :=
  match findRecord s d with
  | none => true
  | some r =>
    match r.entry, r.exit with
    | some e, some x => (parseTime e).isNone || (parseTime x).isNone
    | _, _ => true

/-- The net-hours contribution a date makes to the totals of an
aggregation window: the per-day rounded net figure when the loop counts
the date, 0 when it skips it. -/
def netContrib (s : Store) (d : String) : ℚ :=
  match calculate_hours s d true with
  | some (hn, _) => if hn = 0 then 0 else hn
  | none => 0

/-- The gross-hours contribution a date makes to the totals of an
aggregation window (gross is only accumulated when the net figure is
truthy, line 102/112 and 137/139). -/
def grossContrib (s : Store) (d : String) : ℚ :=
  match calculate_hours s d true with
  | some (hn, hb) => if hn = 0 then 0 else hb
  | none => 0

/-- Whether a stored key parses as `%Y-%m-%d` into the target year
(the filter of the yearly loop, lines 134-135). -/
def yearKeyB (d : String) (y : Nat) : Bool :=
  match parseDate d with
  | some dt => decide (dt.year = y)
  | none => false

/-- The net-hours contribution a stored item makes to the totals of
`get_year_total`: zero unless its key parses into the target year. -/
def yearNetContrib (s : Store) (y : Nat) (d : String) : ℚ :=
  if yearKeyB d y then netContrib s d else 0

/-- The gross-hours contribution a stored item makes to the totals of
`get_year_total`. -/
def yearGrossContrib (s : Store) (y : Nat) (d : String) : ℚ :=
  if yearKeyB d y then grossContrib s d else 0

/-! ### Concrete stores used as witnesses and counterexamples -/

/-- A single boundary shift of exactly five hours. -/
def wsBoundary : Store := [("2024-01-01", ⟨some "09:00", some "14:00", ""⟩)]

/-- A single overnight shift. -/
def wsOvernight : Store := [("2024-01-05", ⟨some "22:00", some "02:00", ""⟩)]

/-- A single complete record whose entry and exit coincide, so its
computed net hours are zero. -/
def wsZero : Store := [("2024-01-01", ⟨some "09:00", some "09:00", ""⟩)]

/-- Two one-minute shifts in the same week. -/
def wsTwoMin : Store :=
  [("2024-01-01", ⟨some "09:00", some "09:01", ""⟩),
   ("2024-01-02", ⟨some "09:00", some "09:01", ""⟩)]

/-- Two one-minute shifts and one two-minute shift in the same year. -/
def wsThree : Store :=
  [("2024-01-01", ⟨some "09:00", some "09:01", ""⟩),
   ("2024-01-02", ⟨some "09:00", some "09:01", ""⟩),
   ("2024-01-03", ⟨some "09:00", some "09:02", ""⟩)]

/-- A store holding a 2023 record, a malformed date key and a 2024
record. -/
def wsYear : Store :=
  [("2023-01-02", ⟨some "09:00", some "14:00", ""⟩),
   ("garbage", ⟨some "09:00", some "14:00", ""⟩),
   ("2024-06-01", ⟨some "09:00", some "09:01", ""⟩)]

/-- `wsYear` with its first two items swapped. -/
def wsYearSwapped : Store :=
  [("garbage", ⟨some "09:00", some "14:00", ""⟩),
   ("2023-01-02", ⟨some "09:00", some "14:00", ""⟩),
   ("2024-06-01", ⟨some "09:00", some "09:01", ""⟩)]

/-- A record with an entry, no exit and a non-empty note. -/
def wsNotes : Store := [("2024-03-03", ⟨some "08:00", none, "hello"⟩)]

/-! ### Helper lemmas -/

/-- Rounding characterization: when the scaled value lies in the lower
half of its unit interval, `round2` rounds down. -/
lemma round2_down (q : ℚ) (n : ℤ) (h1 : (n : ℚ) ≤ q * 100)
    (h2 : q * 100 < (n : ℚ) + 1/2) : round2 q = (n : ℚ) / 100 := by
  have hf : ⌊q * 100⌋ = n := by
    rw [Int.floor_eq_iff]
    exact ⟨h1, by linarith⟩
  have hr : q * 100 - (n : ℚ) < 1/2 := by linarith
  simp only [round2, hf, if_pos hr]

/-- Rounding characterization: when the scaled value lies in the upper
half of its unit interval, `round2` rounds up. -/
lemma round2_up (q : ℚ) (n : ℤ) (h1 : (n : ℚ) + 1/2 < q * 100)
    (h2 : q * 100 < (n : ℚ) + 1) : round2 q = ((n : ℚ) + 1) / 100 := by
  have hf : ⌊q * 100⌋ = n := by
    rw [Int.floor_eq_iff]
    exact ⟨by linarith, by linarith⟩
  have hr1 : ¬ (q * 100 - (n : ℚ) < 1/2) := by push_neg; linarith
  have hr2 : (1 : ℚ)/2 < q * 100 - (n : ℚ) := by linarith
  simp only [round2, hf, if_neg hr1, if_pos hr2]
  push_cast
  ring

lemma parseTime_empty : parseTime "" = none := by decide

/-- Core evaluation of `calculate_hours` on a present record whose two
times parse: the source's lines 68-84 in one equation. -/
lemma calc_hours_parsed (s : Store) (d : String) (r : Record)
    (e x : String) (em xm : Nat)
    (hr : findRecord s d = some r) (he : r.entry = some e)
    (hx : r.exit = some x)
    (hpe : parseTime e = some em) (hpx : parseTime x = some xm) :
    calculate_hours s d true =
      some (round2 (if 5 < grossHoursQ em xm then grossHoursQ em xm - 1/2
                    else grossHoursQ em xm),
            round2 (grossHoursQ em xm)) := by
  have he0 : ¬ (e = "") := by
    intro h
    rw [h, parseTime_empty] at hpe
    cases hpe
  have hx0 : ¬ (x = "") := by
    intro h
    rw [h, parseTime_empty] at hpx
    cases hpx
  simp only [calculate_hours, hr, he, hx]
  rw [if_neg (by tauto : ¬ (e = "" ∨ x = ""))]
  rw [hpe, hpx]
  simp only [true_and]

/-- An absent date gives no calculator result. -/
lemma calc_none_of_find_none (s : Store) (d : String) (b : Bool)
    (h : findRecord s d = none) : calculate_hours s d b = none := by
  simp only [calculate_hours, h]

/-- An absent date is never counted as worked. -/
lemma dnz_false_of_find_none (s : Store) (d : String)
    (h : findRecord s d = none) : definedNonzero s d = false := by
  simp only [definedNonzero, calc_none_of_find_none s d true h]

/-- Evaluation: a `"09:00"`/`"14:00"` record gives exactly five gross
hours and, the deduction threshold being strict, five net hours. -/
lemma calc_eval_0900_1400 (s : Store) (d : String)
    (h : findRecord s d = some ⟨some "09:00", some "14:00", ""⟩) :
    calculate_hours s d true = some (5, 5) := by
  rw [calc_hours_parsed s d _ "09:00" "14:00" 540 840 h rfl rfl
    (by decide) (by decide)]
  have hg : grossHoursQ 540 840 = 5 := by
    simp only [grossHoursQ]
    norm_num
  rw [hg, if_neg (lt_irrefl 5), round2_down 5 500 (by norm_num) (by norm_num)]
  norm_num

/-- Evaluation: a `"22:00"`/`"02:00"` record crosses midnight and gives
four gross and four net hours. -/
lemma calc_eval_2200_0200 (s : Store) (d : String)
    (h : findRecord s d = some ⟨some "22:00", some "02:00", ""⟩) :
    calculate_hours s d true = some (4, 4) := by
  rw [calc_hours_parsed s d _ "22:00" "02:00" 1320 120 h rfl rfl
    (by decide) (by decide)]
  have hg : grossHoursQ 1320 120 = 4 := by
    simp only [grossHoursQ]
    norm_num
  rw [hg, if_neg (by norm_num : ¬ ((5:ℚ) < 4)),
    round2_down 4 400 (by norm_num) (by norm_num)]
  norm_num

/-- Evaluation: a `"09:00"`/`"09:00"` record gives zero net and gross
hours — a defined result that both aggregation loops nonetheless treat
as falsy. -/
lemma calc_eval_0900_0900 (s : Store) (d : String)
    (h : findRecord s d = some ⟨some "09:00", some "09:00", ""⟩) :
    calculate_hours s d true = some (0, 0) := by
  rw [calc_hours_parsed s d _ "09:00" "09:00" 540 540 h rfl rfl
    (by decide) (by decide)]
  have hg : grossHoursQ 540 540 = 0 := by
    simp only [grossHoursQ]
    norm_num
  rw [hg, if_neg (by norm_num : ¬ ((5:ℚ) < 0)),
    round2_down 0 0 (by norm_num) (by norm_num)]
  norm_num

/-- Evaluation: a one-minute `"09:00"`/`"09:01"` record: gross is 1/60
of an hour, which rounds up to 0.02. -/
lemma calc_eval_0900_0901 (s : Store) (d : String)
    (h : findRecord s d = some ⟨some "09:00", some "09:01", ""⟩) :
    calculate_hours s d true = some (1/50, 1/50) := by
  rw [calc_hours_parsed s d _ "09:00" "09:01" 540 541 h rfl rfl
    (by decide) (by decide)]
  have hg : grossHoursQ 540 541 = 1/60 := by
    simp only [grossHoursQ]
    norm_num
  rw [hg, if_neg (by norm_num : ¬ ((5:ℚ) < 1/60)),
    round2_up (1/60) 1 (by norm_num) (by norm_num)]
  norm_num

/-- Evaluation: a two-minute `"09:00"`/`"09:02"` record: gross is 1/30
of an hour, which rounds down to 0.03. -/
lemma calc_eval_0900_0902 (s : Store) (d : String)
    (h : findRecord s d = some ⟨some "09:00", some "09:02", ""⟩) :
    calculate_hours s d true = some (3/100, 3/100) := by
  rw [calc_hours_parsed s d _ "09:00" "09:02" 540 542 h rfl rfl
    (by decide) (by decide)]
  have hg : grossHoursQ 540 542 = 1/30 := by
    simp only [grossHoursQ]
    norm_num
  rw [hg, if_neg (by norm_num : ¬ ((5:ℚ) < 1/30)),
    round2_down (1/30) 3 (by norm_num) (by norm_num)]
  norm_num

/-- `days_worked` of the weekly loop counts exactly the dates whose
calculator result is truthy. -/
lemma weekFold_dw (s : Store) (l : List String) :
    (weekFold s l).dw = (l.filter (fun d => definedNonzero s d)).length := by
  induction l with
  | nil => rfl
  | cons d rest ih =>
    cases hf : findRecord s d with
    | none =>
      have hd := dnz_false_of_find_none s d hf
      simp [weekFold, weekStep, hf, hd, ih]
    | some r =>
      cases hc : calculate_hours s d true with
      | none =>
        have hd : definedNonzero s d = false := by simp [definedNonzero, hc]
        simp [weekFold, weekStep, hf, hc, hd, ih]
      | some pair =>
        obtain ⟨hn, hb⟩ := pair
        by_cases h0 : hn = 0
        · have hd : definedNonzero s d = false := by
            simp [definedNonzero, hc, h0]
          simp [weekFold, weekStep, hf, hc, h0, hd, ih]
        · have hd : definedNonzero s d = true := by
            simp [definedNonzero, hc, h0]
          simp [weekFold, weekStep, hf, hc, h0, hd, ih]

/-- The net total of the weekly loop is the sum of the per-day net
contributions. -/
lemma weekFold_tn (s : Store) (l : List String) :
    (weekFold s l).tn = (l.map (netContrib s)).sum := by
  induction l with
  | nil => rfl
  | cons d rest ih =>
    cases hf : findRecord s d with
    | none =>
      have hz : netContrib s d = 0 := by
        simp [netContrib, calc_none_of_find_none s d true hf]
      simp [weekFold, weekStep, hf, hz, ih]
    | some r =>
      cases hc : calculate_hours s d true with
      | none =>
        have hz : netContrib s d = 0 := by simp [netContrib, hc]
        simp [weekFold, weekStep, hf, hc, hz, ih]
      | some pair =>
        obtain ⟨hn, hb⟩ := pair
        by_cases h0 : hn = 0
        · have hz : netContrib s d = 0 := by simp [netContrib, hc, h0]
          simp [weekFold, weekStep, hf, hc, h0, hz, ih]
        · have hz : netContrib s d = hn := by simp [netContrib, hc, h0]
          simp [weekFold, weekStep, hf, hc, h0, hz, ih]

/-- The gross total of the weekly loop is the sum of the per-day gross
contributions. -/
lemma weekFold_tb (s : Store) (l : List String) :
    (weekFold s l).tb = (l.map (grossContrib s)).sum := by
  induction l with
  | nil => rfl
  | cons d rest ih =>
    cases hf : findRecord s d with
    | none =>
      have hz : grossContrib s d = 0 := by
        simp [grossContrib, calc_none_of_find_none s d true hf]
      simp [weekFold, weekStep, hf, hz, ih]
    | some r =>
      cases hc : calculate_hours s d true with
      | none =>
        have hz : grossContrib s d = 0 := by simp [grossContrib, hc]
        simp [weekFold, weekStep, hf, hc, hz, ih]
      | some pair =>
        obtain ⟨hn, hb⟩ := pair
        by_cases h0 : hn = 0
        · have hz : grossContrib s d = 0 := by simp [grossContrib, hc, h0]
          simp [weekFold, weekStep, hf, hc, h0, hz, ih]
        · have hz : grossContrib s d = hb := by simp [grossContrib, hc, h0]
          simp [weekFold, weekStep, hf, hc, h0, hz, ih]

/-- A stored item whose key does not parse into the target year is
skipped by the yearly loop. -/
lemma yearStep_skip (s : Store) (y : Nat) (p : String × Record)
    (a : YearAcc) (h : yearKeyB p.1 y = false) : yearStep s y p a = a := by
  cases hd : parseDate p.1 with
  | none => simp [yearStep, hd]
  | some dt =>
    have hne : ¬ (dt.year = y) := by
      simp only [yearKeyB, hd] at h
      exact of_decide_eq_false h
    simp [yearStep, hd, hne]

/-- `days_worked` of the yearly loop counts exactly the stored items
whose key parses into the target year and whose calculator result is
truthy. -/
lemma yearFold_dw (s : Store) (y : Nat) (l : List (String × Record)) :
    (yearFold s y l).dw =
      (l.filter (fun p => yearKeyB p.1 y && definedNonzero s p.1)).length := by
  induction l with
  | nil => rfl
  | cons p rest ih =>
    cases hk : yearKeyB p.1 y with
    | false =>
      rw [yearFold, yearStep_skip s y p _ hk]
      simp [hk, ih]
    | true =>
      cases hd : parseDate p.1 with
      | none => simp [yearKeyB, hd] at hk
      | some dt =>
        have hy : dt.year = y := by
          simp only [yearKeyB, hd] at hk
          exact of_decide_eq_true hk
        cases hc : calculate_hours s p.1 true with
        | none =>
          have hz : definedNonzero s p.1 = false := by
            simp [definedNonzero, hc]
          simp [yearFold, yearStep, hd, hy, hk, hc, hz, ih]
        | some pair =>
          obtain ⟨hn, hb⟩ := pair
          by_cases h0 : hn = 0
          · have hz : definedNonzero s p.1 = false := by
              simp [definedNonzero, hc, h0]
            simp [yearFold, yearStep, hd, hy, hk, hc, h0, hz, ih]
          · have hz : definedNonzero s p.1 = true := by
              simp [definedNonzero, hc, h0]
            simp [yearFold, yearStep, hd, hy, hk, hc, h0, hz, ih]

/-- The net total of the yearly loop is the sum of the per-item net
contributions. -/
lemma yearFold_tn (s : Store) (y : Nat) (l : List (String × Record)) :
    (yearFold s y l).tn = (l.map (fun p => yearNetContrib s y p.1)).sum := by
  induction l with
  | nil => rfl
  | cons p rest ih =>
    cases hk : yearKeyB p.1 y with
    | false =>
      have hz : yearNetContrib s y p.1 = 0 := by
        simp [yearNetContrib, hk]
      rw [yearFold, yearStep_skip s y p _ hk]
      simp [hz, ih]
    | true =>
      have hcontrib : yearNetContrib s y p.1 = netContrib s p.1 := by
        simp [yearNetContrib, hk]
      cases hd : parseDate p.1 with
      | none => simp [yearKeyB, hd] at hk
      | some dt =>
        have hy : dt.year = y := by
          simp only [yearKeyB, hd] at hk
          exact of_decide_eq_true hk
        cases hc : calculate_hours s p.1 true with
        | none =>
          have hz : netContrib s p.1 = 0 := by simp [netContrib, hc]
          simp [yearFold, yearStep, hd, hy, hc, hcontrib, hz, ih]
        | some pair =>
          obtain ⟨hn, hb⟩ := pair
          by_cases h0 : hn = 0
          · have hz : netContrib s p.1 = 0 := by simp [netContrib, hc, h0]
            simp [yearFold, yearStep, hd, hy, hc, h0, hcontrib, hz, ih]
          · have hz : netContrib s p.1 = hn := by simp [netContrib, hc, h0]
            simp [yearFold, yearStep, hd, hy, hc, h0, hcontrib, hz, ih]

/-- The gross total of the yearly loop is the sum of the per-item gross
contributions. -/
lemma yearFold_tb (s : Store) (y : Nat) (l : List (String × Record)) :
    (yearFold s y l).tb = (l.map (fun p => yearGrossContrib s y p.1)).sum := by
  induction l with
  | nil => rfl
  | cons p rest ih =>
    cases hk : yearKeyB p.1 y with
    | false =>
      have hz : yearGrossContrib s y p.1 = 0 := by
        simp [yearGrossContrib, hk]
      rw [yearFold, yearStep_skip s y p _ hk]
      simp [hz, ih]
    | true =>
      have hcontrib : yearGrossContrib s y p.1 = grossContrib s p.1 := by
        simp [yearGrossContrib, hk]
      cases hd : parseDate p.1 with
      | none => simp [yearKeyB, hd] at hk
      | some dt =>
        have hy : dt.year = y := by
          simp only [yearKeyB, hd] at hk
          exact of_decide_eq_true hk
        cases hc : calculate_hours s p.1 true with
        | none =>
          have hz : grossContrib s p.1 = 0 := by simp [grossContrib, hc]
          simp [yearFold, yearStep, hd, hy, hc, hcontrib, hz, ih]
        | some pair =>
          obtain ⟨hn, hb⟩ := pair
          by_cases h0 : hn = 0
          · have hz : grossContrib s p.1 = 0 := by simp [grossContrib, hc, h0]
            simp [yearFold, yearStep, hd, hy, hc, h0, hcontrib, hz, ih]
          · have hz : grossContrib s p.1 = hb := by simp [grossContrib, hc, h0]
            simp [yearFold, yearStep, hd, hy, hc, h0, hcontrib, hz, ih]

/-- Updating a key does not change whether any key is present. -/
lemma findRecord_updateAt_none (s : Store) (d d' : String) (f : Record → Record)
    (h : findRecord s d' = none) : findRecord (updateAt s d f) d' = none := by
  induction s with
  | nil => rfl
  | cons p rest ih =>
    simp only [findRecord] at h
    by_cases hp : p.1 = d'
    · rw [if_pos hp] at h
      cases h
    · rw [if_neg hp] at h
      show findRecord ((if p.1 = d then (p.1, f p.2) else p) :: updateAt rest d f) d' = none
      by_cases hpd : p.1 = d
      · rw [if_pos hpd]
        simp only [findRecord, if_neg hp]
        exact ih h
      · rw [if_neg hpd]
        simp only [findRecord, if_neg hp]
        exact ih h

/-- Looking up the updated key returns the updated record. -/
lemma findRecord_updateAt_self (s : Store) (d : String) (f : Record → Record)
    (r : Record) (h : findRecord s d = some r) :
    findRecord (updateAt s d f) d = some (f r) := by
  induction s with
  | nil => cases h
  | cons p rest ih =>
    simp only [findRecord] at h
    show findRecord ((if p.1 = d then (p.1, f p.2) else p) :: updateAt rest d f) d = some (f r)
    by_cases hp : p.1 = d
    · rw [if_pos hp] at h
      injection h with h
      subst h
      rw [if_pos hp]
      simp only [findRecord, if_pos hp]
    · rw [if_neg hp] at h
      rw [if_neg hp]
      simp only [findRecord, if_neg hp]
      exact ih h

/-- Updating a key preserves key membership. -/
lemma containsKey_updateAt (s : Store) (d : String) (f : Record → Record) :
    containsKey (updateAt s d f) d = containsKey s d := by
  cases h : findRecord s d with
  | none => simp [containsKey, h, findRecord_updateAt_none s d d f h]
  | some r => simp [containsKey, h, findRecord_updateAt_self s d f r h]

/-- Appending a fresh binding makes its key found when it was absent. -/
lemma findRecord_append_fresh (s : Store) (d : String) (r : Record)
    (h : findRecord s d = none) : findRecord (s ++ [(d, r)]) d = some r := by
  induction s with
  | nil => simp [findRecord]
  | cons p rest ih =>
    simp only [findRecord] at h
    by_cases hp : p.1 = d
    · rw [if_pos hp] at h
      cases h
    · rw [if_neg hp] at h
      simp only [List.cons_append, findRecord, if_neg hp]
      exact ih h

/-- Appending a binding for one key does not disturb other keys. -/
lemma findRecord_append_ne (s : Store) (d d' : String) (r : Record)
    (h : ¬ (d' = d)) :
    findRecord (s ++ [(d, r)]) d' = findRecord s d' := by
  induction s with
  | nil =>
    have hne : ¬ (d = d') := fun hh => h hh.symm
    simp [findRecord, hne]
  | cons p rest ih =>
    by_cases hp : p.1 = d'
    · simp only [List.cons_append, findRecord, if_pos hp]
    · simp only [List.cons_append, findRecord, if_neg hp]
      exact ih

/-- After `ensureKey` the key is always present. -/
lemma containsKey_ensureKey (s : Store) (d : String) :
    containsKey (ensureKey s d) d = true := by
  by_cases h : containsKey s d = true
  · simp [ensureKey, h]
  · have hn : findRecord s d = none := by
      cases hf : findRecord s d with
      | none => rfl
      | some r => exact absurd (by simp [containsKey, hf]) h
    simp [ensureKey, containsKey, hn, findRecord_append_fresh s d _ hn]

/-- `ensureKey` is the identity when the key is present. -/
lemma ensureKey_of_contains (s : Store) (d : String)
    (h : containsKey s d = true) : ensureKey s d = s := by
  simp [ensureKey, h]

/-- Two successive updates of the same key fuse. -/
lemma updateAt_updateAt (s : Store) (d : String) (f g : Record → Record) :
    updateAt (updateAt s d f) d g = updateAt s d (fun r => g (f r)) := by
  induction s with
  | nil => rfl
  | cons p rest ih =>
    show (if (if p.1 = d then (p.1, f p.2) else p).1 = d
            then ((if p.1 = d then (p.1, f p.2) else p).1,
                  g (if p.1 = d then (p.1, f p.2) else p).2)
            else (if p.1 = d then (p.1, f p.2) else p)) ::
          updateAt (updateAt rest d f) d g =
        (if p.1 = d then (p.1, g (f p.2)) else p) :: updateAt rest d (fun r => g (f r))
    by_cases hp : p.1 = d
    · rw [ih]
      simp [hp]
    · rw [ih]
      simp [hp]

/-- `ensureKey` on a fresh key does not disturb other keys. -/
lemma findRecord_ensureKey_ne (s : Store) (d d' : String) (h : ¬ (d' = d)) :
    findRecord (ensureKey s d) d' = findRecord s d' := by
  by_cases hc : containsKey s d = true
  · rw [ensureKey_of_contains s d hc]
  · simp only [ensureKey, hc, if_false, Bool.false_eq_true]
    exact findRecord_append_ne s d d' _ h

/-- `updateAt` on one key does not disturb other keys. -/
lemma findRecord_updateAt_ne (s : Store) (d d' : String) (f : Record → Record)
    (h : ¬ (d' = d)) :
    findRecord (updateAt s d f) d' = findRecord s d' := by
  induction s with
  | nil => rfl
  | cons p rest ih =>
    show findRecord ((if p.1 = d then (p.1, f p.2) else p) :: updateAt rest d f) d' =
        findRecord (p :: rest) d'
    by_cases hpd : p.1 = d
    · have hp : ¬ (p.1 = d') := fun hh => h (hh.symm.trans hpd)
      rw [if_pos hpd]
      simp only [findRecord, if_neg hp]
      exact ih
    · rw [if_neg hpd]
      by_cases hp : p.1 = d'
      · simp only [findRecord, if_pos hp]
      · simp only [findRecord, if_neg hp]
        exact ih

/-- Deleting a key removes it from lookups. -/
lemma findRecord_filter_self (s : Store) (d : String) :
    findRecord (s.filter (fun p => !(p.1 = d : Bool))) d = none := by
  induction s with
  | nil => rfl
  | cons p rest ih =>
    by_cases hp : p.1 = d
    · rw [List.filter_cons_of_neg (by simp [hp])]
      exact ih
    · rw [List.filter_cons_of_pos (by simp [hp])]
      simp only [findRecord, if_neg hp]
      exact ih

/-- Deleting a key does not disturb other keys. -/
lemma findRecord_filter_ne (s : Store) (d d' : String) (h : ¬ (d' = d)) :
    findRecord (s.filter (fun p => !(p.1 = d : Bool))) d' = findRecord s d' := by
  induction s with
  | nil => rfl
  | cons p rest ih =>
    by_cases hpd : p.1 = d
    · have hp : ¬ (p.1 = d') := fun hh => h (hh.symm.trans hpd)
      rw [List.filter_cons_of_neg (by simp [hpd])]
      rw [ih]
      simp only [findRecord, if_neg hp]
    · rw [List.filter_cons_of_pos (by simp [hpd])]
      by_cases hp : p.1 = d'
      · simp only [findRecord, if_pos hp]
      · simp only [findRecord, if_neg hp]
        exact ih

/-- Restricting the store by a predicate on keys does not disturb the
lookup of a key satisfying the predicate. -/
lemma findRecord_filter_key (keyPred : String → Bool) (s : Store) (d : String)
    (h : keyPred d = true) :
    findRecord (s.filter (fun p => keyPred p.1)) d = findRecord s d := by
  induction s with
  | nil => rfl
  | cons p rest ih =>
    by_cases hp : p.1 = d
    · rw [List.filter_cons_of_pos (by rw [hp, h])]
      simp only [findRecord, if_pos hp]
    · cases hk : keyPred p.1 with
      | true =>
        rw [List.filter_cons_of_pos (by rw [hk])]
        simp only [findRecord, if_neg hp]
        exact ih
      | false =>
        rw [List.filter_cons_of_neg (by simp [hk])]
        rw [ih]
        simp only [findRecord, if_neg hp]

/-- `calculate_hours` reads the store only through `findRecord`. -/
lemma calculate_hours_congr (s s' : Store) (d : String) (b : Bool)
    (h : findRecord s d = findRecord s' d) :
    calculate_hours s d b = calculate_hours s' d b := by
  simp only [calculate_hours, h]

/-- Lookups agree across a permutation of a store with distinct keys. -/
lemma findRecord_perm (d : String) : ∀ {s s' : Store}, s.Perm s' →
    (s.map Prod.fst).Nodup → findRecord s d = findRecord s' d := by
  intro s s' hp
  induction hp with
  | nil => intro _; rfl
  | cons p hrest ih =>
    intro hnd
    rw [List.map_cons] at hnd
    have hnd' := (List.nodup_cons.mp hnd).2
    by_cases hpd : p.1 = d
    · simp only [findRecord, if_pos hpd]
    · simp only [findRecord, if_neg hpd]
      exact ih hnd'
  | swap p q l =>
    intro hnd
    rw [List.map_cons, List.map_cons] at hnd
    have hqp : ¬ (q.1 = p.1) := by
      have hmem := (List.nodup_cons.mp hnd).1
      intro hh
      exact hmem (by rw [hh]; exact List.mem_cons_self _ _)
    by_cases hq : q.1 = d
    · have hpne : ¬ (p.1 = d) := by
        intro hh
        exact hqp (hq.trans hh.symm)
      simp only [findRecord, if_pos hq, if_neg hpne]
    · by_cases hpd : p.1 = d
      · simp only [findRecord, if_neg hq, if_pos hpd]
      · simp only [findRecord, if_neg hq, if_neg hpd]
  | trans h1 h2 ih1 ih2 =>
    intro hnd
    have hnd2 : _ := ((h1.map Prod.fst).nodup_iff).mp hnd
    exact (ih1 hnd).trans (ih2 hnd2)

/-- A date appearing in the weekly per-day dict is present in the store. -/
lemma weekFold_days_mem (s : Store) (l : List String) (d : String)
    (e : DayEntry) (h : (d, e) ∈ (weekFold s l).days) :
    ¬ (findRecord s d = none) := by
  induction l with
  | nil => cases h
  | cons d' rest ih =>
    by_cases hf : findRecord s d' = none
    · have : weekFold s (d' :: rest) = weekFold s rest := by
        cases hfe : findRecord s d' with
        | none => simp [weekFold, weekStep, hfe]
        | some r => rw [hfe] at hf; cases hf
      rw [this] at h
      exact ih h
    · cases hfe : findRecord s d' with
      | none => exact absurd hfe hf
      | some r =>
        cases hc : calculate_hours s d' true with
        | none =>
          rw [show weekFold s (d' :: rest) = weekFold s rest by
            simp [weekFold, weekStep, hfe, hc]] at h
          exact ih h
        | some pair =>
          obtain ⟨hn, hb⟩ := pair
          by_cases h0 : hn = 0
          · rw [show weekFold s (d' :: rest) = weekFold s rest by
              simp [weekFold, weekStep, hfe, hc, h0]] at h
            exact ih h
          · have hdays : (weekFold s (d' :: rest)).days =
                (d', ⟨r.entry, r.exit, hn, hb, r.notes, decide (5 < hb)⟩) ::
                  (weekFold s rest).days := by
              simp [weekFold, weekStep, hfe, hc, h0]
            rw [hdays] at h
            rcases List.mem_cons.mp h with heq | hmem
            · have : d = d' := by
                injection heq with h1 h2
              rw [this, hfe]
              intro hh
              cases hh
            · exact ih hmem

/-- Projection: the weekly `days_worked` output is the loop counter. -/
lemma get_week_data_days_worked (s : Store) (start : Date) :
    (get_week_data s start).days_worked = (weekFold s (weekDates start)).dw := rfl

/-- Projection: the weekly net total output is the loop total. -/
lemma get_week_data_tn_eq (s : Store) (start : Date) :
    (get_week_data s start).total_hours_net = (weekFold s (weekDates start)).tn := rfl

/-- Projection: the weekly gross total output is the loop total. -/
lemma get_week_data_tb_eq (s : Store) (start : Date) :
    (get_week_data s start).total_hours_gross = (weekFold s (weekDates start)).tb := rfl

/-- Projection: the weekly average output in terms of the loop state. -/
lemma get_week_data_avg_eq (s : Store) (start : Date) :
    (get_week_data s start).avg_per_day =
      (if 0 < (weekFold s (weekDates start)).dw
       then (weekFold s (weekDates start)).tn /
         ((weekFold s (weekDates start)).dw : ℚ)
       else 0) := rfl

/-- Projection: the weekly per-day dict output is the loop dict. -/
lemma get_week_data_days_eq (s : Store) (start : Date) :
    (get_week_data s start).days = (weekFold s (weekDates start)).days := rfl

/-- Projection: the yearly `days_worked` output is the loop counter. -/
lemma get_year_total_days_worked (s : Store) (y : Nat) :
    (get_year_total s y).days_worked = (yearFold s y s).dw := rfl

/-- Projection: the yearly net total output rounds the loop total. -/
lemma get_year_total_tn_eq (s : Store) (y : Nat) :
    (get_year_total s y).total_hours_net = round2 (yearFold s y s).tn := rfl

/-- Projection: the yearly gross total output rounds the loop total. -/
lemma get_year_total_tb_eq (s : Store) (y : Nat) :
    (get_year_total s y).total_hours_gross = round2 (yearFold s y s).tb := rfl

/-- Projection: the yearly average output in terms of the loop state. -/
lemma get_year_total_avg_eq (s : Store) (y : Nat) :
    (get_year_total s y).avg_per_day =
      (if 0 < (yearFold s y s).dw
       then round2 ((yearFold s y s).tn / ((yearFold s y s).dw : ℚ))
       else 0) := rfl

/-- The yearly loop over a store restricted to the target year's keys
computes the same running state as the loop over the full store. -/
lemma yearFold_filter_eq (s : Store) (y : Nat) (l : List (String × Record)) :
    yearFold (s.filter (fun p => yearKeyB p.1 y)) y
        (l.filter (fun p => yearKeyB p.1 y)) =
      yearFold s y l := by
  induction l with
  | nil => rfl
  | cons p rest ih =>
    cases hk : yearKeyB p.1 y with
    | false =>
      rw [List.filter_cons_of_neg (by simp [hk])]
      rw [yearFold, yearStep_skip s y p _ hk]
      exact ih
    | true =>
      rw [List.filter_cons_of_pos (by rw [hk])]
      rw [yearFold, yearFold, ih]
      have hc : calculate_hours (s.filter (fun p => yearKeyB p.1 y)) p.1 true =
          calculate_hours s p.1 true :=
        calculate_hours_congr _ _ _ _
          (findRecord_filter_key (fun dd => yearKeyB dd y) s p.1 hk)
      simp only [yearStep, hc]

/-! ### Claim theorems -/

/-- C1: for every record whose entry and exit times parse as `HH:MM`,
`calculate_hours` with `apply_break` true returns net hours equal to
`round(grossHours - 0.5, 2)` when the unrounded gross hours strictly
exceed 5, and `round(grossHours, 2)` otherwise — in particular a gross
of exactly 5 hours is not deducted (strict `>`); the gross component is
always `round(grossHours, 2)`. -/
theorem c1_break_deduction (s : Store) (d : String) (r : Record)
    (e x : String) (em xm : Nat)
    (hr : findRecord s d = some r) (he : r.entry = some e)
    (hx : r.exit = some x) (hpe : parseTime e = some em)
    (hpx : parseTime x = some xm) :
    calculate_hours s d true =
      some (round2 (if 5 < grossHoursQ em xm then grossHoursQ em xm - 1/2
                    else grossHoursQ em xm),
            round2 (grossHoursQ em xm)) :=
  calc_hours_parsed s d r e x em xm hr he hx hpe hpx

/-- Witness for C1 at the five-hour boundary: entry `"09:00"`, exit
`"14:00"` give gross exactly 5 and net 5 — no deduction. -/
theorem c1_break_deduction_witness :
    calculate_hours wsBoundary "2024-01-01" true = some (5, 5) ∧
    grossHoursQ 540 840 = 5 := by
  have hg : grossHoursQ 540 840 = 5 := by
    simp only [grossHoursQ]
    norm_num
  constructor
  · have h := c1_break_deduction wsBoundary "2024-01-01"
      ⟨some "09:00", some "14:00", ""⟩ "09:00" "14:00" 540 840
      (by decide) rfl rfl (by decide) (by decide)
    rw [h, hg, if_neg (lt_irrefl 5),
      round2_down 5 500 (by norm_num) (by norm_num)]
    norm_num
  · exact hg

/-- C3: when the exit time-of-day is strictly earlier than the entry
time-of-day, `calculate_hours` adds 24 hours to the exit before taking
the difference. -/
theorem c3_overnight (s : Store) (d : String) (r : Record)
    (e x : String) (em xm : Nat)
    (hr : findRecord s d = some r) (he : r.entry = some e)
    (hx : r.exit = some x) (hpe : parseTime e = some em)
    (hpx : parseTime x = some xm) (hlt : xm < em) :
    calculate_hours s d true =
      some (round2 (if 5 < ((xm + 1440 - em : Nat) : ℚ) / 60
                    then ((xm + 1440 - em : Nat) : ℚ) / 60 - 1/2
                    else ((xm + 1440 - em : Nat) : ℚ) / 60),
            round2 (((xm + 1440 - em : Nat) : ℚ) / 60)) := by
  have hg : grossHoursQ em xm = ((xm + 1440 - em : Nat) : ℚ) / 60 := by
    simp only [grossHoursQ, if_pos hlt]
  rw [calc_hours_parsed s d r e x em xm hr he hx hpe hpx, hg]

/-- Witness for C3: entry `"22:00"`, exit `"02:00"` give gross 4.0 and
net 4.0 (no deduction, since 4 is not greater than 5). -/
theorem c3_overnight_witness :
    calculate_hours wsOvernight "2024-01-05" true = some (4, 4) ∧
    parseTime "22:00" = some 1320 ∧ parseTime "02:00" = some 120 ∧
    120 < 1320 := by
  refine ⟨?_, by decide, by decide, by norm_num⟩
  have h := c3_overnight wsOvernight "2024-01-05"
    ⟨some "22:00", some "02:00", ""⟩ "22:00" "02:00" 1320 120
    (by decide) rfl rfl (by decide) (by decide) (by norm_num)
  rw [h]
  have hg : ((120 + 1440 - 1320 : Nat) : ℚ) / 60 = 4 := by norm_num
  rw [hg, if_neg (by norm_num : ¬ ((5 : ℚ) < 4)),
    round2_down 4 400 (by norm_num) (by norm_num)]
  norm_num

/-- C5: `calculate_hours` has no result exactly when the record is
absent, its entry or exit is absent, or either time string fails to
parse as `HH:MM`; it is a total function, so it never raises. -/
theorem c5_undefined_iff (s : Store) (d : String) (b : Bool) :
    (calculate_hours s d b).isNone = specCalcUndefined s d := by
  cases hf : findRecord s d with
  | none => simp [calculate_hours, specCalcUndefined, hf]
  | some r =>
    cases he : r.entry with
    | none =>
      cases hx : r.exit with
      | none => simp [calculate_hours, specCalcUndefined, hf, he, hx]
      | some x => simp [calculate_hours, specCalcUndefined, hf, he, hx]
    | some e =>
      cases hx : r.exit with
      | none => simp [calculate_hours, specCalcUndefined, hf, he, hx]
      | some x =>
        by_cases he0 : e = ""
        · simp [calculate_hours, specCalcUndefined, hf, he, hx, he0,
            parseTime_empty]
        · by_cases hx0 : x = ""
          · simp [calculate_hours, specCalcUndefined, hf, he, hx, he0, hx0,
              parseTime_empty]
          · cases hpe : parseTime e with
            | none =>
              simp [calculate_hours, specCalcUndefined, hf, he, hx, he0, hx0,
                hpe]
            | some em =>
              cases hpx : parseTime x with
              | none =>
                simp [calculate_hours, specCalcUndefined, hf, he, hx, he0,
                  hx0, hpe, hpx]
              | some xm =>
                simp [calculate_hours, specCalcUndefined, hf, he, hx, he0,
                  hx0, hpe, hpx]

/-- C2 (amended): in both aggregation windows `days_worked` counts the
dates whose calculator result is defined AND non-zero (`if horas_netas:`
treats `0.0` like `None`): absent, incomplete, unparsable AND zero-net
dates are all excluded. -/
theorem c2_days_worked_truthy (s : Store) (start : Date) (y : Nat) :
    (get_week_data s start).days_worked =
      ((weekDates start).filter (fun d => definedNonzero s d)).length ∧
    (get_year_total s y).days_worked =
      (s.filter (fun p => yearKeyB p.1 y && definedNonzero s p.1)).length := by
  constructor
  · rw [get_week_data_days_worked]
    exact weekFold_dw s (weekDates start)
  · rw [get_year_total_days_worked]
    exact yearFold_dw s y s

/-- Counterexample to C2 as stated: a complete, parseable record with
equal entry and exit times produces the defined result `(0.0, 0.0)` but
is not counted in `days_worked`. -/
theorem c2_counterexample :
    (get_week_data wsZero ⟨2024, 1, 1⟩).days_worked = 0 ∧
    specCalcUndefined wsZero "2024-01-01" = false ∧
    calculate_hours wsZero "2024-01-01" true = some (0, 0) ∧
    "2024-01-01" ∈ weekDates ⟨2024, 1, 1⟩ := by
  have hc : calculate_hours wsZero "2024-01-01" true = some (0, 0) :=
    calc_eval_0900_0900 wsZero "2024-01-01" (by decide)
  refine ⟨?_, by decide, hc, by decide⟩
  have hw : weekDates ⟨2024, 1, 1⟩ =
      ["2024-01-01", "2024-01-02", "2024-01-03", "2024-01-04",
       "2024-01-05", "2024-01-06", "2024-01-07"] := by decide
  have h1 : definedNonzero wsZero "2024-01-01" = false := by
    simp [definedNonzero, hc]
  have h2 : definedNonzero wsZero "2024-01-02" = false :=
    dnz_false_of_find_none _ _ (by decide)
  have h3 : definedNonzero wsZero "2024-01-03" = false :=
    dnz_false_of_find_none _ _ (by decide)
  have h4 : definedNonzero wsZero "2024-01-04" = false :=
    dnz_false_of_find_none _ _ (by decide)
  have h5 : definedNonzero wsZero "2024-01-05" = false :=
    dnz_false_of_find_none _ _ (by decide)
  have h6 : definedNonzero wsZero "2024-01-06" = false :=
    dnz_false_of_find_none _ _ (by decide)
  have h7 : definedNonzero wsZero "2024-01-07" = false :=
    dnz_false_of_find_none _ _ (by decide)
  rw [get_week_data_days_worked, weekFold_dw, hw]
  simp [h1, h2, h3, h4, h5, h6, h7]

/-- C4 (amended): the totals of both aggregation windows are sums of the
PER-DAY ROUNDED net/gross figures returned by `calculate_hours` (days
with falsy net contribute nothing); the weekly totals are returned as
that raw sum with no final rounding, while the yearly totals round the
sum of rounded values once more at the end. -/
theorem c4_totals_per_day_rounded (s : Store) (start : Date) (y : Nat) :
    (get_week_data s start).total_hours_net =
      ((weekDates start).map (netContrib s)).sum ∧
    (get_week_data s start).total_hours_gross =
      ((weekDates start).map (grossContrib s)).sum ∧
    (get_year_total s y).total_hours_net =
      round2 ((s.map (fun p => yearNetContrib s y p.1)).sum) ∧
    (get_year_total s y).total_hours_gross =
      round2 ((s.map (fun p => yearGrossContrib s y p.1)).sum) := by
  refine ⟨?_, ?_, ?_, ?_⟩
  · rw [get_week_data_tn_eq]
    exact weekFold_tn s (weekDates start)
  · rw [get_week_data_tb_eq]
    exact weekFold_tb s (weekDates start)
  · rw [get_year_total_tn_eq, yearFold_tn]
  · rw [get_year_total_tb_eq, yearFold_tb]

/-- Counterexample to C4 as stated: two one-minute days (each unrounded
net 1/60 h) give a weekly net total of 0.04 (the sum of the per-day
rounded values 0.02 + 0.02), not 0.03 = `round(1/60 + 1/60, 2)` as the
round-once-at-the-end claim would require. -/
theorem c4_counterexample :
    (get_week_data wsTwoMin ⟨2024, 1, 1⟩).total_hours_net = 1/25 ∧
    calculate_hours wsTwoMin "2024-01-01" true = some (1/50, 1/50) ∧
    calculate_hours wsTwoMin "2024-01-02" true = some (1/50, 1/50) ∧
    grossHoursQ 540 541 = 1/60 ∧
    round2 (1/60 + 1/60) = 3/100 ∧
    ¬ ((1/25 : ℚ) = 3/100) := by
  have hc1 : calculate_hours wsTwoMin "2024-01-01" true = some (1/50, 1/50) :=
    calc_eval_0900_0901 wsTwoMin "2024-01-01" (by decide)
  have hc2 : calculate_hours wsTwoMin "2024-01-02" true = some (1/50, 1/50) :=
    calc_eval_0900_0901 wsTwoMin "2024-01-02" (by decide)
  refine ⟨?_, hc1, hc2, ?_, ?_, by norm_num⟩
  · have hw : weekDates ⟨2024, 1, 1⟩ =
        ["2024-01-01", "2024-01-02", "2024-01-03", "2024-01-04",
         "2024-01-05", "2024-01-06", "2024-01-07"] := by decide
    have h1 : netContrib wsTwoMin "2024-01-01" = 1/50 := by
      simp [netContrib, hc1]
    have h2 : netContrib wsTwoMin "2024-01-02" = 1/50 := by
      simp [netContrib, hc2]
    have hz : ∀ d, findRecord wsTwoMin d = none → netContrib wsTwoMin d = 0 := by
      intro d hd
      simp [netContrib, calc_none_of_find_none wsTwoMin d true hd]
    have h3 := hz "2024-01-03" (by decide)
    have h4 := hz "2024-01-04" (by decide)
    have h5 := hz "2024-01-05" (by decide)
    have h6 := hz "2024-01-06" (by decide)
    have h7 := hz "2024-01-07" (by decide)
    rw [get_week_data_tn_eq, weekFold_tn, hw]
    simp [h1, h2, h3, h4, h5, h6, h7]
    norm_num
  · simp only [grossHoursQ]
    norm_num
  · rw [show (1/60 + 1/60 : ℚ) = 1/30 by norm_num,
      round2_down (1/30) 3 (by norm_num) (by norm_num)]
    norm_num

/-- C6 (amended): the weekly average is exactly `total_net /
days_worked` when days were worked and exactly 0 otherwise; the yearly
average is that quotient (of the pre-rounding running total) rounded to
2 decimals when days were worked, and exactly 0 otherwise. -/
theorem c6_average_rule (s : Store) (start : Date) (y : Nat) :
    (get_week_data s start).avg_per_day =
      (if (get_week_data s start).days_worked = 0 then 0
       else (get_week_data s start).total_hours_net /
         ((get_week_data s start).days_worked : ℚ)) ∧
    (get_year_total s y).avg_per_day =
      (if (get_year_total s y).days_worked = 0 then 0
       else round2 (((s.map (fun p => yearNetContrib s y p.1)).sum) /
         ((get_year_total s y).days_worked : ℚ))) := by
  constructor
  · rw [get_week_data_avg_eq, get_week_data_days_worked, get_week_data_tn_eq]
    rcases Nat.eq_zero_or_pos (weekFold s (weekDates start)).dw with h | h
    · rw [h]
      simp
    · rw [if_pos h, if_neg (Nat.pos_iff_ne_zero.mp h)]
  · rw [get_year_total_avg_eq, get_year_total_days_worked, ← yearFold_tn]
    rcases Nat.eq_zero_or_pos (yearFold s y s).dw with h | h
    · rw [h]
      simp
    · rw [if_pos h, if_neg (Nat.pos_iff_ne_zero.mp h)]

/-- Counterexample to C6 as stated: three short days in one year with
per-day rounded nets 0.02, 0.02 and 0.03 give `total_net = 0.07`,
`days_worked = 3` and `average_per_day = round(0.07/3, 2) = 0.02`, which
is not the exact quotient 0.07/3. -/
theorem c6_counterexample :
    (get_year_total wsThree 2024).avg_per_day = 1/50 ∧
    (get_year_total wsThree 2024).total_hours_net = 7/100 ∧
    (get_year_total wsThree 2024).days_worked = 3 ∧
    ¬ ((1/50 : ℚ) = (7/100) / (3 : ℚ)) := by
  have hc1 : calculate_hours wsThree "2024-01-01" true = some (1/50, 1/50) :=
    calc_eval_0900_0901 wsThree "2024-01-01" (by decide)
  have hc2 : calculate_hours wsThree "2024-01-02" true = some (1/50, 1/50) :=
    calc_eval_0900_0901 wsThree "2024-01-02" (by decide)
  have hc3 : calculate_hours wsThree "2024-01-03" true = some (3/100, 3/100) :=
    calc_eval_0900_0902 wsThree "2024-01-03" (by decide)
  have hd1 : parseDate "2024-01-01" = some ⟨2024, 1, 1⟩ := by decide
  have hd2 : parseDate "2024-01-02" = some ⟨2024, 1, 2⟩ := by decide
  have hd3 : parseDate "2024-01-03" = some ⟨2024, 1, 3⟩ := by decide
  have hfold : yearFold wsThree 2024 wsThree = ⟨7/100, 7/100, 3⟩ := by
    show yearFold wsThree 2024
      [("2024-01-01", ⟨some "09:00", some "09:01", ""⟩),
       ("2024-01-02", ⟨some "09:00", some "09:01", ""⟩),
       ("2024-01-03", ⟨some "09:00", some "09:02", ""⟩)] = ⟨7/100, 7/100, 3⟩
    simp only [yearFold, yearStep, hd1, hd2, hd3, hc1, hc2, hc3,
      show ¬ ((1/50 : ℚ) = 0) by norm_num,
      show ¬ ((3/100 : ℚ) = 0) by norm_num,
      if_neg, if_pos, if_true]
    norm_num
  refine ⟨?_, ?_, ?_, by norm_num⟩
  · rw [get_year_total_avg_eq, hfold]
    show (if 0 < 3 then round2 ((7/100 : ℚ) / ((3 : Nat) : ℚ)) else 0) = 1/50
    rw [if_pos (by norm_num),
      show ((7/100 : ℚ) / ((3 : Nat) : ℚ)) = 7/300 by norm_num,
      round2_down (7/300) 2 (by norm_num) (by norm_num)]
    norm_num
  · rw [get_year_total_tn_eq, hfold]
    show round2 (7/100) = 7/100
    rw [round2_down (7/100) 7 (by norm_num) (by norm_num)]
    norm_num
  · rw [get_year_total_days_worked, hfold]

/-- C7: `get_year_total` is invariant under permutation of the store
(order of iteration is irrelevant), and equals the aggregation of the
store restricted to the keys that parse as `%Y-%m-%d` into the target
year — so dates of other years and malformed keys are skipped without
error. -/
theorem c7_year_filter_perm (s s' : Store) (y : Nat)
    (hnd : (s.map Prod.fst).Nodup) (hp : s.Perm s') :
    get_year_total s y = get_year_total s' y ∧
    get_year_total s y =
      get_year_total (s.filter (fun p => yearKeyB p.1 y)) y := by
  constructor
  · have hfr : ∀ dd, findRecord s dd = findRecord s' dd := fun dd =>
      findRecord_perm dd hp hnd
    have hfn : (fun p : String × Record => yearNetContrib s y p.1) =
        (fun p : String × Record => yearNetContrib s' y p.1) :=
      funext fun p => by
        simp only [yearNetContrib, netContrib,
          calculate_hours_congr s s' p.1 true (hfr p.1)]
    have hfg : (fun p : String × Record => yearGrossContrib s y p.1) =
        (fun p : String × Record => yearGrossContrib s' y p.1) :=
      funext fun p => by
        simp only [yearGrossContrib, grossContrib,
          calculate_hours_congr s s' p.1 true (hfr p.1)]
    have hpred : (fun p : String × Record =>
          yearKeyB p.1 y && definedNonzero s p.1) =
        (fun p : String × Record => yearKeyB p.1 y && definedNonzero s' p.1) :=
      funext fun p => by
        simp only [definedNonzero,
          calculate_hours_congr s s' p.1 true (hfr p.1)]
    have htn : (yearFold s y s).tn = (yearFold s' y s').tn := by
      rw [yearFold_tn, yearFold_tn, ← hfn]
      exact (hp.map _).sum_eq
    have htb : (yearFold s y s).tb = (yearFold s' y s').tb := by
      rw [yearFold_tb, yearFold_tb, ← hfg]
      exact (hp.map _).sum_eq
    have hdw : (yearFold s y s).dw = (yearFold s' y s').dw := by
      rw [yearFold_dw, yearFold_dw, ← hpred]
      exact (hp.filter _).length_eq
    simp only [get_year_total, htn, htb, hdw]
  · have hEq := yearFold_filter_eq s y s
    simp only [get_year_total, hEq]

/-- Witness for C7: a store holding a 2023 record, a malformed key and a
2024 record aggregates for 2023 the same way after swapping two items,
and the same as its restriction to keys parsing into 2023. -/
theorem c7_year_filter_perm_witness :
    get_year_total wsYear 2023 = get_year_total wsYearSwapped 2023 ∧
    get_year_total wsYear 2023 =
      get_year_total (wsYear.filter (fun p => yearKeyB p.1 2023)) 2023 := by
  have hperm : wsYear.Perm wsYearSwapped := by
    show List.Perm
      (("2023-01-02", (⟨some "09:00", some "14:00", ""⟩ : Record)) ::
        ("garbage", (⟨some "09:00", some "14:00", ""⟩ : Record)) ::
        [("2024-06-01", (⟨some "09:00", some "09:01", ""⟩ : Record))])
      (("garbage", (⟨some "09:00", some "14:00", ""⟩ : Record)) ::
        ("2023-01-02", (⟨some "09:00", some "14:00", ""⟩ : Record)) ::
        [("2024-06-01", (⟨some "09:00", some "09:01", ""⟩ : Record))])
    exact List.Perm.swap _ _ _
  exact c7_year_filter_perm wsYear wsYearSwapped 2023 (by decide) hperm

/-- C8: registering the same entry time twice for a date (with no notes)
is a no-op on the resulting store state: the second call changes
nothing, so `exit` and `notes` keep their values from the first call and
`entry` holds the latest value written. -/
theorem c8_register_idempotent (s : Store) (d t : String) :
    register_time (register_time s d TimeType.entry t "") d TimeType.entry t ""
      = register_time s d TimeType.entry t "" := by
  have hsimp : (fun r : Record =>
      let r1 := r.setTime TimeType.entry t
      if ("" : String) = "" then r1 else { r1 with notes := "" }) =
      (fun r : Record => r.setTime TimeType.entry t) := by
    funext r
    simp
  simp only [register_time, hsimp]
  rw [ensureKey_of_contains _ d
    (by rw [containsKey_updateAt]; exact containsKey_ensureKey s d)]
  rw [updateAt_updateAt]
  congr 1

/-- C9: deleting a present date removes exactly that record: the delete
reports success, the date is gone from lookups and from the weekly
per-day aggregation dict, and every other date's record is unchanged. -/
theorem c9_delete_frame (s : Store) (d : String)
    (h : containsKey s d = true) :
    (delete_record s d).2 = true ∧
    findRecord (delete_record s d).1 d = none ∧
    (∀ d', ¬ (d' = d) →
      findRecord (delete_record s d).1 d' = findRecord s d') ∧
    (∀ start e, ¬ ((d, e) ∈ (get_week_data (delete_record s d).1 start).days)) := by
  have h1 : (delete_record s d).1 = s.filter (fun p => !(p.1 = d : Bool)) := by
    simp [delete_record, h]
  refine ⟨by simp [delete_record, h], ?_, ?_, ?_⟩
  · rw [h1]
    exact findRecord_filter_self s d
  · intro d' hne
    rw [h1]
    exact findRecord_filter_ne s d d' hne
  · intro start e hmem
    have hnone : findRecord (delete_record s d).1 d = none := by
      rw [h1]
      exact findRecord_filter_self s d
    rw [get_week_data_days_eq] at hmem
    exact weekFold_days_mem _ _ d e hmem hnone

/-- Witness for C9 on a one-record store: deleting its date succeeds,
its lookup is gone, another date's lookup is untouched, and the date no
longer appears in that week's aggregation dict. -/
theorem c9_delete_frame_witness :
    (delete_record wsBoundary "2024-01-01").2 = true ∧
    findRecord (delete_record wsBoundary "2024-01-01").1 "2024-01-01" = none ∧
    findRecord (delete_record wsBoundary "2024-01-01").1 "2024-01-02" =
      findRecord wsBoundary "2024-01-02" ∧
    ¬ (("2024-01-01",
        (⟨some "09:00", some "14:00", 5, 5, "", false⟩ : DayEntry)) ∈
      (get_week_data (delete_record wsBoundary "2024-01-01").1
        ⟨2024, 1, 1⟩).days) := by
  obtain ⟨a, b, c, dd⟩ := c9_delete_frame wsBoundary "2024-01-01" (by decide)
  exact ⟨a, b, c "2024-01-02" (by decide), dd ⟨2024, 1, 1⟩ _⟩

/-- C10: when the `notes` argument is empty, `register_time` on an
existing record updates only the requested time field and leaves the
stored notes unchanged; notes are overwritten exactly when the new notes
argument is non-empty. -/
theorem c10_register_notes (s : Store) (d : String) (r : Record)
    (tt : TimeType) (tv : String)
    (hr : findRecord s d = some r) (_hnotes : ¬ (r.notes = "")) :
    findRecord (register_time s d tt tv "") d = some (r.setTime tt tv) ∧
    (r.setTime tt tv).notes = r.notes ∧
    (r.setTime TimeType.entry tv).exit = r.exit ∧
    (r.setTime TimeType.exit tv).entry = r.entry ∧
    (∀ n, ¬ (n = "") → findRecord (register_time s d tt tv n) d =
      some { r.setTime tt tv with notes := n }) := by
  have hc : containsKey s d = true := by simp [containsKey, hr]
  refine ⟨?_, ?_, rfl, rfl, ?_⟩
  · simp only [register_time, ensureKey_of_contains s d hc]
    have hupd := findRecord_updateAt_self s d (fun r : Record =>
      let r1 := r.setTime tt tv
      if ("" : String) = "" then r1 else { r1 with notes := "" }) r hr
    simpa using hupd
  · cases tt <;> rfl
  · intro n hn
    simp only [register_time, ensureKey_of_contains s d hc]
    have hupd := findRecord_updateAt_self s d (fun r : Record =>
      let r1 := r.setTime tt tv
      if n = "" then r1 else { r1 with notes := n }) r hr
    rw [hupd]
    simp [hn]

/-- Witness for C10: on a record with notes `"hello"`, registering an
exit with empty notes keeps `"hello"`; registering with notes `"note2"`
overwrites them. -/
theorem c10_register_notes_witness :
    findRecord (register_time wsNotes "2024-03-03" TimeType.exit "17:00" "")
        "2024-03-03" = some ⟨some "08:00", some "17:00", "hello"⟩ ∧
    findRecord (register_time wsNotes "2024-03-03" TimeType.exit "17:00" "note2")
        "2024-03-03" = some ⟨some "08:00", some "17:00", "note2"⟩ := by
  obtain ⟨a, b, c, dd, e⟩ := c10_register_notes wsNotes "2024-03-03"
    ⟨some "08:00", none, "hello"⟩ TimeType.exit "17:00" (by decide) (by decide)
  constructor
  · exact a
  · exact e "note2" (by decide)

end ControlHoras
